import Mathlib

/-!
Verification of the retrieval and query-routing core of the
AI-Product-Finder-Tool repository (src/app/search_engine.py and the rebuild
endpoint of src/app/main.py), as a shallow embedding in Lean 4.

Conventions of the embedding:
* a pandas cell is `Option String`: `none` models a missing value (NaN),
  `some s` models a scalar whose Python `str()` rendering is `s`;
* a DataFrame row is an ordered association list of column name to cell;
* the catalog dictionary is an ordered list of (category, rows) pairs
  (Python dict iteration order), keys distinct as for a dict;
* real-valued similarity scores and prices are modelled by `Rat`;
* the opaque sklearn pair (TfidfVectorizer, tfidf_matrix) is modelled by a
  similarity oracle `String -> List Rat` giving the flattened cosine
  similarity row for a query, `Option`-wrapped because the code passes
  `None, None` after a failed build (the two components are always both
  present or both absent in the program);
* Python exceptions that escape a function are modelled with `Except Unit`;
* the external generative responder (get_gemini_response) is passed in as an
  opaque function `String -> String`.
-/

set_option maxRecDepth 4000

namespace ProductFinder

/-! ### Python string primitives (ASCII model of str.lower/strip/split and `in`) -/

/-- ASCII case folding of one character, the model of Python `str.lower` on
the catalog/query alphabet. -/
def asciiLower (c : Char) : Char :=
  if 'A' ≤ c ∧ c ≤ 'Z' then Char.ofNat (c.toNat + 32) else c

/-- Model of Python `s.lower()`. -/
def strLower (s : String) : String := ⟨s.data.map asciiLower⟩

/-- Python whitespace (ASCII part), as used by `str.strip`, `str.split` and
the regex class `\s`. -/
def pyIsSpace (c : Char) : Bool :=
  c == ' ' || c == '\t' || c == '\n' || c == '\r' || c == Char.ofNat 11 || c == Char.ofNat 12

/-- Model of Python `s.strip()`. -/
def pyStrip (s : String) : String :=
  ⟨((s.data.dropWhile pyIsSpace).reverse.dropWhile pyIsSpace).reverse⟩

/-- Helper for `pySplit`: accumulate the current word (reversed) while
scanning. -/
def splitWsAux : List Char → List Char → List (List Char)
  | cur, [] => if cur.isEmpty then [] else [cur.reverse]
  | cur, c :: rest =>
    if pyIsSpace c then
      if cur.isEmpty then splitWsAux [] rest else cur.reverse :: splitWsAux [] rest
    else splitWsAux (c :: cur) rest

/-- Model of Python `s.split()` (split on whitespace runs, no empty parts). -/
def pySplit (s : String) : List String :=
  (splitWsAux [] s.data).map fun l => ⟨l⟩

/-- Boolean list-prefix test. -/
def listPrefixB : List Char → List Char → Bool
  | [], _ => true
  | _ :: _, [] => false
  | a :: as, b :: bs => a == b && listPrefixB as bs

/-- Boolean substring test on character lists. -/
def listInfixB (needle : List Char) : List Char → Bool
  | [] => needle.isEmpty
  | c :: rest => listPrefixB needle (c :: rest) || listInfixB needle rest

/-- Model of the Python operator `needle in hay` on strings. -/
def pyIn (needle hay : String) : Bool := listInfixB needle.data hay.data

/-- Value of a digit list read in base ten. -/
def natOfDigits (l : List Char) : Nat :=
  l.foldl (fun n c => 10 * n + (c.toNat - 48)) 0

/-! ### The price-constraint parser (search_engine.parse_price_constraints)

The four regular expressions of the source are implemented as explicit
leftmost-match scanners.  Character classes adjacent in each pattern are
disjoint, so greedy (maximal-munch) matching coincides with backtracking
semantics; the only needed backtracking, between overlapping alternation
branches such as `max`/`maximum`, is implemented by trying each keyword with
its full continuation. -/

/-- Strip a literal off the front of the input, the model of matching a
literal piece of a regex. -/
def stripLit : List Char → List Char → Option (List Char)
  | [], l => some l
  | _ :: _, [] => none
  | a :: as, b :: bs => if a == b then stripLit as bs else none

/-- The regex class `[\d,]`. -/
def isDigitCommaB (c : Char) : Bool := c.isDigit || c == ','

/-- Match `between\s+([\d,]+)\s*(?:and|-)\s*([\d,]+)` anchored at the start of
the input, returning the two captured groups. -/
def matchBetweenAt (l : List Char) : Option (List Char × List Char) :=
  match stripLit "between".data l with
  | none => none
  | some l1 =>
    if (l1.takeWhile pyIsSpace).isEmpty then none else
    let l2 := l1.dropWhile pyIsSpace
    let g1 := l2.takeWhile isDigitCommaB
    if g1.isEmpty then none else
    let l3 := (l2.dropWhile isDigitCommaB).dropWhile pyIsSpace
    let tail := fun (l4 : List Char) =>
      let l5 := l4.dropWhile pyIsSpace
      let g2 := l5.takeWhile isDigitCommaB
      if g2.isEmpty then none else some (g1, g2)
    match stripLit "and".data l3 with
    | some l4 => tail l4
    | none =>
      match stripLit "-".data l3 with
      | some l4 => tail l4
      | none => none

/-- Match `([\d,]+)\s*-\s*([\d,]+)` anchored at the start of the input. -/
def matchDashRangeAt (l : List Char) : Option (List Char × List Char) :=
  let g1 := l.takeWhile isDigitCommaB
  if g1.isEmpty then none else
  let l2 := (l.dropWhile isDigitCommaB).dropWhile pyIsSpace
  match stripLit "-".data l2 with
  | none => none
  | some l3 =>
    let l4 := l3.dropWhile pyIsSpace
    let g2 := l4.takeWhile isDigitCommaB
    if g2.isEmpty then none else some (g1, g2)

/-- Match `(?:kw1|kw2|...)\s*₹?\s*([\d,]+)` anchored at the start of the
input, trying the keyword alternatives in order with full backtracking. -/
def matchKwNumAt : List String → List Char → Option (List Char)
  | [], _ => none
  | kw :: rest, l =>
    match stripLit kw.data l with
    | none => matchKwNumAt rest l
    | some l1 =>
      let l2 := l1.dropWhile pyIsSpace
      let l3 := match l2 with
        | c :: t => if c == '₹' then t else l2
        | [] => l2
      let l4 := l3.dropWhile pyIsSpace
      let g := l4.takeWhile isDigitCommaB
      if g.isEmpty then matchKwNumAt rest l else some g

/-- Model of `re.search`: try the anchored matcher at every start position,
left to right. -/
def searchFrom {α : Type} (p : List Char → Option α) : List Char → Option α
  | [] => p []
  | c :: rest =>
    match p (c :: rest) with
    | some r => some r
    | none => searchFrom p rest

/-- Model of `float(group.replace(',', ''))` for a `[\d,]+` capture: commas
are stripped; an all-comma capture leaves the empty string, on which Python
`float` raises (`none` here). -/
def numFromGroup (g : List Char) : Option Rat :=
  let ds := g.filter Char.isDigit
  if ds.isEmpty then none else some (natOfDigits ds : Rat)

/-- search_engine.parse_price_constraints.  `Except.error` models a
`ValueError` escaping the function (reachable only on a capture with no
digit). -/
def parse_price_constraints (query : String) : Except Unit (Option Rat × Option Rat) :=
  let q := (strLower query).data
  match searchFrom matchBetweenAt q with
  | some (g1, g2) =>
    match numFromGroup g1, numFromGroup g2 with
    | some low, some high => .ok (some (min low high), some (max low high))
    | _, _ => .error ()
  | none =>
    match searchFrom matchDashRangeAt q with
    | some (g1, g2) =>
      match numFromGroup g1, numFromGroup g2 with
      | some low, some high => .ok (some (min low high), some (max low high))
      | _, _ => .error ()
    | none =>
      match searchFrom (matchKwNumAt ["under", "below", "less than", "max", "maximum"]) q with
      | some g =>
        match numFromGroup g with
        | some v => .ok (none, some v)
        | none => .error ()
      | none =>
        match searchFrom (matchKwNumAt ["over", "above", "more than", "min", "minimum"]) q with
        | some g =>
          match numFromGroup g with
          | some v => .ok (some v, none)
          | none => .error ()
        | none => .ok (none, none)

deriving instance DecidableEq for Except

/-! ### Data model: rows, catalog, metadata -/

/-- One DataFrame row: ordered column name / cell pairs; a `none` cell is a
missing value (`pd.isna`). -/
def Row : Type := List (String × Option String)

instance : DecidableEq Row := by unfold Row; infer_instance

instance : Inhabited Row := ⟨([] : List (String × Option String))⟩

/-- The catalog, Python `Dict[str, pd.DataFrame]` in iteration order. -/
def Catalog : Type := List (String × List Row)

/-- One metadata entry: `{'category': category, 'index': idx, 'row': row}`. -/
structure Meta where
  category : String
  index : Nat
  row : Row
deriving DecidableEq, Inhabited

/-! ### Price extraction (search_engine.extract_price_value) -/

/-- Model of Python `float(s)` for a string over digits and dots (the residue
of `re.sub` with pattern class complement of digits and dot): valid iff it
has at most one dot and at least one digit. -/
def pyFloatDots (s : List Char) : Option Rat :=
  if 1 < (s.filter (fun c => c == '.')).length then none
  else if (s.filter Char.isDigit).isEmpty then none
  else
    let intPart := s.takeWhile fun c => !(c == '.')
    let fracPart := (s.dropWhile fun c => !(c == '.')).drop 1
    some (mkRat (natOfDigits (intPart ++ fracPart)) (10 ^ fracPart.length))

/-- search_engine.extract_price_value: scan the row's columns in order for a
name containing "price" (case-insensitive); skip missing cells; keep only
digits and dots of the value; return the first value Python `float` accepts. -/
def extract_price_value : Row → Option Rat
  | [] => none
  | (col, val) :: rest =>
    if pyIn "price" (strLower col) then
      match val with
      | none => extract_price_value rest
      | some v =>
        let s := v.data.filter fun c => c.isDigit || c == '.'
        if s.isEmpty then extract_price_value rest
        else
          match pyFloatDots s with
          | some q => some q
          | none => extract_price_value rest
    else extract_price_value rest

/-! ### Corpus builder (search_engine.build_corpus_from_data) -/

/-- The curated set of important fields (a Python set literal; iteration
order is irrelevant because only `any` is applied to it). -/
def importantFields : List String :=
  ["name", "model", "brand", "title", "processor", "ram", "storage",
   "memory", "display", "camera", "battery", "os"]

/-- The source's weight test: `any(imp in str(col) for imp in important_fields)`
(a case-sensitive substring match on the column name as written). -/
def importantSub (col : String) : Bool :=
  importantFields.any fun imp => pyIn imp col

/-- The spec's wording of the weight test, for comparison: matched by
substring, case-insensitively. -/
def importantCI (col : String) : Bool :=
  importantFields.any fun imp => pyIn imp (strLower col)

/-- The token list of one document, built exactly as in the source: the
category three times, then for each non-missing column whose stripped string
value is non-empty, the column name followed by the value repeated 3 times
(important column) or once. -/
def docParts (category : String) (row : Row) : List String :=
  row.foldl
    (fun parts cv =>
      match cv.2 with
      | none => parts
      | some v =>
        let vs := pyStrip v
        if vs = "" then parts
        else parts ++ [cv.1] ++ List.replicate (if importantSub cv.1 then 3 else 1) vs)
    [category, category, category]

/-- The document text: `' '.join(parts)`. -/
def docText (category : String) (row : Row) : String :=
  String.intercalate " " (docParts category row)

/-- The contribution of a single column/cell pair to a document, written as
the specification describes it field by field (with the source's
case-sensitive weight test). -/
def fieldTokens (cv : String × Option String) : List String :=
  match cv.2 with
  | none => []
  | some v =>
    let vs := pyStrip v
    if vs = "" then []
    else cv.1 :: List.replicate (if importantSub cv.1 then 3 else 1) vs

/-- Corpus and metadata of all rows of one category, carrying the running row
ordinal (the `idx` of `df.iterrows()` over a default range index). -/
def buildCatAux (cat : String) : Nat → List Row → List String × List Meta
  | _, [] => ([], [])
  | j, r :: rs =>
    let rest := buildCatAux cat (j + 1) rs
    (docText cat r :: rest.1, ⟨cat, j, r⟩ :: rest.2)

/-- search_engine.build_corpus_from_data: the corpus and the parallel
metadata list, categories in dict order, rows in order. -/
def build_corpus_from_data (data : Catalog) : List String × List Meta :=
  data.foldr
    (fun p acc =>
      let cm := buildCatAux p.1 0 p.2
      (cm.1 ++ acc.1, cm.2 ++ acc.2))
    ([], [])

/-! ### Retrieval engine (search_engine.retrieve_with_index) -/

/-- The opaque sklearn pair (fitted TfidfVectorizer, tfidf_matrix), observed
by the program only through `cosine_similarity(vectorizer.transform([query]),
tfidf_matrix).flatten()`: a map from the query to the per-document similarity
row. -/
def SimOracle : Type := String → List Rat

/-- Python truthiness of an optional float (`None` and `0.0` are falsy), as
tested by `if min_p and price_val and ...`. -/
def qTruthy : Option Rat → Bool
  | none => false
  | some x => !(x == 0)

/-- Python truthiness of an optional string (`None` and `''` are falsy), as
tested by `if category_filter and ...`. -/
def sTruthy : Option String → Bool
  | none => false
  | some s => !(s == "")

/-- A returned hit.  The Python dict stores the JSON-safe row under both
`data` and `row`; with cells already modelled as `Option String` the
JSON-safe conversion is the identity, so a single `row` field carries both. -/
structure Hit where
  score : Rat
  category : String
  index : Nat
  row : Row
deriving DecidableEq

/-- Insert an index into a list of indices kept in descending order of
similarity. -/
def insertIdxDesc (sims : List Rat) (i : Nat) : List Nat → List Nat
  | [] => [i]
  | j :: rest =>
    if sims.getD j 0 < sims.getD i 0 then i :: j :: rest
    else j :: insertIdxDesc sims i rest

/-- Model of `sims.argsort()[::-1]`: all document indices sorted by
descending similarity (numpy leaves tie order unspecified; this model fixes
one order, and no verified property depends on the order among ties). -/
def argsortDesc (sims : List Rat) : List Nat :=
  (List.range sims.length).foldl (fun acc i => insertIdxDesc sims i acc) []

/-- The candidate loop of retrieve_with_index: walk the ranked candidate
indices, apply the confidence threshold, the category filter and the price
filter, and stop once `top_k` hits are collected (the length test runs after
each append, as in the source). -/
def retrieveLoop (md : List Meta) (sims : List Rat) (minP maxP : Option Rat)
    (cf : Option String) (topK : Int) : List Nat → List Hit → List Hit
  | [], acc => acc
  | i :: rest, acc =>
    let score := sims.getD i 0
    if score < mkRat 1 20 then retrieveLoop md sims minP maxP cf topK rest acc
    else
      let m := md.getD i default
      if sTruthy cf && !(m.category == cf.getD "") then
        retrieveLoop md sims minP maxP cf topK rest acc
      else
        let pv := extract_price_value m.row
        if (qTruthy minP && qTruthy pv && decide (pv.getD 0 < minP.getD 0)) ||
            (qTruthy maxP && qTruthy pv && decide (maxP.getD 0 < pv.getD 0)) then
          retrieveLoop md sims minP maxP cf topK rest acc
        else
          let acc2 := acc ++ [⟨score, m.category, m.index, m.row⟩]
          if topK ≤ (acc2.length : Int) then acc2
          else retrieveLoop md sims minP maxP cf topK rest acc2

/-- search_engine.retrieve_with_index.  `none` for the index pair models
`vectorizer is None or tfidf_matrix is None`; `Except.error` models a
`ValueError` escaping from `parse_price_constraints`. -/
def retrieve_with_index (query : String) (index : Option SimOracle)
    (metadata : List Meta) (topK : Int) (category_filter : Option String) :
    Except Unit (List Hit) :=
  match index with
  | none => .ok []
  | some oracle =>
    let ql := strLower query
    let cf :=
      if sTruthy category_filter then category_filter
      else
        if ["headphone", "headset", "earbud"].any (fun w => pyIn w ql) then some "headphone"
        else if ["mobile", "smartphone", "phone"].any (fun w => pyIn w ql) then some "mobile"
        else if ["laptop", "notebook", "pc"].any (fun w => pyIn w ql) then some "laptop"
        else category_filter
    let sims := oracle query
    let cands := (argsortDesc sims).take (min 200 sims.length)
    match parse_price_constraints query with
    | .error e => .error e
    | .ok (minP, maxP) => .ok (retrieveLoop metadata sims minP maxP cf topK cands [])

/-- A catalog row with a parseable price, used in concrete scenarios. -/
def demoRow : Row := [("name", some "alpha book"), ("price", some "30000")]

/-- A catalog row with no price column at all. -/
def noPriceRow : Row := [("name", some "basic book")]

/-- A catalog row whose price extracts to zero. -/
def zeroPriceRow : Row := [("name", some "zero book"), ("price", some "0")]

/-- A one-document metadata list for the priced row. -/
def demoMeta : List Meta := [⟨"laptop", 0, demoRow⟩]

/-- A similarity oracle giving one document full similarity. -/
def demoOracle : SimOracle := fun _ => [1]

/-- The conditions a candidate index satisfied when the loop accepted it as a
hit: the hit's fields come from the metadata entry, the category guard did
not fire, and the price guard did not fire. -/
def acceptedHit (md : List Meta) (sims : List Rat) (minP maxP : Option Rat)
    (cf : Option String) (i : Nat) (h : Hit) : Prop :=
  h = ⟨sims.getD i 0, (md.getD i default).category, (md.getD i default).index,
    (md.getD i default).row⟩ ∧
  (sTruthy cf && !((md.getD i default).category == cf.getD "")) = false ∧
  ((qTruthy minP && qTruthy (extract_price_value (md.getD i default).row) &&
      decide ((extract_price_value (md.getD i default).row).getD 0 < minP.getD 0)) ||
    (qTruthy maxP && qTruthy (extract_price_value (md.getD i default).row) &&
      decide (maxP.getD 0 < (extract_price_value (md.getD i default).row).getD 0))) = false

/-! ### Chat router (search_engine.generate_chat_response)

The external generative responder (get_gemini_response, which wraps a network
service) is passed in as an opaque function. -/

/-- The chat reply: Python returns `{"type", "response"}` for general replies
and additionally `"results"` for product replies. -/
structure ChatResp where
  rtype : String
  response : String
  results : Option (List Hit)
deriving DecidableEq

/-- Containment of any keyword of the group in the message, the model of
`any(word in query_lower for word in group)`. -/
def anyIn (group : List String) (hay : String) : Bool :=
  group.any fun w => pyIn w hay

/-- The canned greeting reply. -/
def greetingReply : String :=
  "Hello. How may I assist you with product search or questions today?"

/-- The canned farewell reply. -/
def farewellReply : String :=
  "Goodbye. If you need further assistance, please ask anytime."

/-- The canned thanks reply. -/
def thanksReply : String :=
  "You're welcome. Would you like help with anything else?"

/-- The canned help reply. -/
def helpReply : String :=
  "I can help you find products, filter by price, or compare items. For example: 'Show me Dell laptops with 16GB RAM under 80000'."

/-- The canned identity reply. -/
def identityReply : String :=
  "I am a product search assistant that helps locate and compare electronics from the available dataset."

/-- The fixed header of a product reply. -/
def productReply : String :=
  "Here are the most relevant products matching your query:"

/-- The product-keyword set of the router. -/
def productKeywords : List String :=
  ["phone", "mobile", "laptop", "computer", "headphone", "earphone", "gaming",
   "show", "find", "search", "looking for", "compare", "vs", "or",
   "under", "budget", "price", "cost", "how much", "cheap", "expensive"]

/-- The f-string prompt sent to the responder when retrieval found nothing. -/
def noMatchPrompt (query : String) : String :=
  "I could not find matching products in the store for the following query: '" ++ query ++
    "'. Please provide general guidance based on product knowledge: " ++ query

/-- search_engine.generate_chat_response: canned conversational replies
first, then keyword routing to product retrieval with `top_k = 3`, falling
back to the responder when retrieval is empty, else the responder directly. -/
def generate_chat_response (query : String) (index : Option SimOracle)
    (metadata : List Meta) (gemini : String → String) : Except Unit ChatResp :=
  let ql := pyStrip (strLower query)
  if anyIn ["hello", "hi", "hey"] ql && decide ((pySplit ql).length < 3) then
    .ok ⟨"general", greetingReply, none⟩
  else if anyIn ["bye", "goodbye", "see you"] ql then
    .ok ⟨"general", farewellReply, none⟩
  else if anyIn ["thank", "thanks", "appreciate"] ql then
    .ok ⟨"general", thanksReply, none⟩
  else if anyIn ["help", "guide", "what can you do"] ql then
    .ok ⟨"general", helpReply, none⟩
  else if anyIn ["who are you", "what are you"] ql then
    .ok ⟨"general", identityReply, none⟩
  else if anyIn productKeywords ql then
    match retrieve_with_index query index metadata 3 none with
    | .error e => .error e
    | .ok results =>
      if results.isEmpty then .ok ⟨"general", gemini (noMatchPrompt query), none⟩
      else .ok ⟨"product", productReply, some results⟩
  else .ok ⟨"general", gemini query, none⟩

/-- Four well-matching laptop rows, to exercise the `top_k = 3` cut. -/
def fourLaptops : List Meta :=
  [⟨"laptop", 0, [("name", some "a1"), ("price", some "1000")]⟩,
   ⟨"laptop", 1, [("name", some "a2"), ("price", some "2000")]⟩,
   ⟨"laptop", 2, [("name", some "a3"), ("price", some "3000")]⟩,
   ⟨"laptop", 3, [("name", some "a4"), ("price", some "4000")]⟩]

/-- An oracle ranking the four laptops in document order. -/
def fourOracle : SimOracle := fun _ => [mkRat 9 10, mkRat 8 10, mkRat 7 10, mkRat 6 10]

/-! ### Index build (search_engine.build_tfidf_index) and the admin rebuild
endpoint (main.admin_rebuild) -/

/-- search_engine.build_tfidf_index, parameterized by the opaque sklearn
`fit_transform` (which raises, modelled by `Except.error`, when the corpus is
empty or pruning leaves an empty vocabulary): the `try/except` of the source
catches the error and returns the absent pair `None, None`. -/
def build_tfidf_index (fit : List String → Except Unit SimOracle)
    (corpus : List String) : Option SimOracle :=
  match fit corpus with
  | .ok oracle => some oracle
  | .error _ => none

/-- The module-level state of app.main that admin_rebuild reads and writes:
the in-memory globals DATA/CORPUS/METADATA/VECTORIZER+TFIDF_MATRIX and the
artifacts persisted via joblib. -/
structure ServerState where
  data : Catalog
  corpus : List String
  metadata : List Meta
  index : Option SimOracle
  persisted : Option (SimOracle × List Meta × List String)

/-- main.admin_rebuild (the body after authentication): reload the catalog,
rebuild corpus, metadata and index into the globals unconditionally, and
persist the new artifacts only when the build succeeded. -/
def admin_rebuild (fit : List String → Except Unit SimOracle)
    (newData : Catalog) (st : ServerState) : ServerState :=
  let cm := build_corpus_from_data newData
  let idx := build_tfidf_index fit cm.1
  { data := newData
    corpus := cm.1
    metadata := cm.2
    index := idx
    persisted :=
      match idx with
      | some v => some (v, cm.2, cm.1)
      | none => st.persisted }

/-- The offline-then-online pipeline: build the corpus and index from the
catalog, then serve a query against that snapshot. -/
def searchPipeline (fit : List String → Except Unit SimOracle) (data : Catalog)
    (query : String) (topK : Int) : Except Unit (List Hit) :=
  let cm := build_corpus_from_data data
  retrieve_with_index query (build_tfidf_index fit cm.1) cm.2 topK none

/-- A fit that always fails, as on an empty or degenerate corpus. -/
def fitFail : List String → Except Unit SimOracle := fun _ => .error ()

/-- A server state holding a live index built from an earlier snapshot. -/
def liveState : ServerState :=
  { data := [("laptop", [demoRow])]
    corpus := (build_corpus_from_data [("laptop", [demoRow])]).1
    metadata := demoMeta
    index := some demoOracle
    persisted := none }

/-! ### Concrete evaluation checks of the embedding -/

example : parse_price_constraints "Maximum 700" = .ok (none, some 700) := by decide

example : parse_price_constraints "phone 1000 - 2,500" = .ok (some 1000, some 2500) := by decide

example : extract_price_value [("name", some "x"), ("price", some "₹1,999")] = some 1999 := by
  decide

example : extract_price_value [("Price(USD)", some "12.50")] = some (mkRat 25 2) := by decide

example : extract_price_value [("price", none), ("selling_price", some "800")] = some 800 := by
  decide

example : extract_price_value [("price", some "N/A"), ("cost", some "5")] = none := by decide

example :
    build_corpus_from_data [("laptop", [[("name", some "x1")], [("name", some "x2")]])] =
      (["laptop laptop laptop name x1 x1 x1", "laptop laptop laptop name x2 x2 x2"],
        [⟨"laptop", 0, [("name", some "x1")]⟩, ⟨"laptop", 1, [("name", some "x2")]⟩]) := by
  decide

example :
    retrieve_with_index "laptop under 50000" (some demoOracle) demoMeta 5 none =
      .ok [⟨1, "laptop", 0, demoRow⟩] := by decide

example :
    retrieve_with_index "laptop above 500" (some demoOracle)
        [⟨"laptop", 0, zeroPriceRow⟩] 5 none =
      .ok [⟨1, "laptop", 0, zeroPriceRow⟩] := by decide

example :
    retrieve_with_index "mobile under 100" (some demoOracle) demoMeta 5 none = .ok [] := by
  decide

example :
    generate_chat_response "hello" none [] (fun s => s) =
      .ok ⟨"general", greetingReply, none⟩ := by decide

example :
    generate_chat_response "laptop under 50000" (some (fun _ => [])) []
        (fun s => "R:" ++ s) =
      .ok ⟨"general", "R:" ++ noMatchPrompt "laptop under 50000", none⟩ := by
  decide

example : (admin_rebuild fitFail [] liveState).index = none := rfl

example : liveState.index.isSome = true := rfl

/-! ### Lemmas about the corpus builder -/

/-- One step of the docParts fold adds exactly the field's tokens. -/
theorem docParts_step (parts : List String) (cv : String × Option String) :
    (match cv.2 with
      | none => parts
      | some v =>
        let vs := pyStrip v
        if vs = "" then parts
        else parts ++ [cv.1] ++ List.replicate (if importantSub cv.1 then 3 else 1) vs) =
      parts ++ fieldTokens cv := by
  rcases cv with ⟨c, v⟩
  cases v with
  | none => simp [fieldTokens]
  | some v =>
    simp only [fieldTokens]
    by_cases h : pyStrip v = "" <;> simp [h, List.append_assoc]

/-- The docParts fold, started from any prefix, appends the per-field
contributions in order. -/
theorem docParts_foldl (row : Row) (init : List String) :
    row.foldl
        (fun parts cv =>
          match cv.2 with
          | none => parts
          | some v =>
            let vs := pyStrip v
            if vs = "" then parts
            else parts ++ [cv.1] ++ List.replicate (if importantSub cv.1 then 3 else 1) vs)
        init =
      init ++ row.flatMap fieldTokens := by
  induction row generalizing init with
  | nil => simp
  | cons cv rest ih =>
    simp only [List.foldl_cons, List.flatMap_cons]
    rw [docParts_step, ih, List.append_assoc]

/-- The token list of a document is the category three times followed by the
per-field contributions. -/
theorem docParts_eq (category : String) (row : Row) :
    docParts category row =
      [category, category, category] ++ row.flatMap fieldTokens := by
  unfold docParts
  exact docParts_foldl row _

/-- Lengths produced for one category agree. -/
theorem buildCatAux_length (cat : String) (j : Nat) (rows : List Row) :
    (buildCatAux cat j rows).1.length = rows.length ∧
      (buildCatAux cat j rows).2.length = rows.length := by
  induction rows generalizing j with
  | nil => simp [buildCatAux]
  | cons r rs ih =>
    simp [buildCatAux, (ih (j + 1)).1, (ih (j + 1)).2]

/-- Characterization of the metadata entries produced for one category. -/
theorem buildCatAux_get (cat : String) (j : Nat) (rows : List Row) (i : Nat) (m : Meta)
    (h : (buildCatAux cat j rows).2[i]? = some m) :
    (buildCatAux cat j rows).1[i]? = some (docText cat m.row) ∧
      m.category = cat ∧ m.index = j + i ∧ rows[i]? = some m.row := by
  induction rows generalizing j i with
  | nil => simp [buildCatAux] at h
  | cons r rs ih =>
    cases i with
    | zero =>
      simp [buildCatAux] at h
      subst h
      simp [buildCatAux]
    | succ i =>
      simp only [buildCatAux, List.getElem?_cons_succ] at h ⊢
      obtain ⟨h1, h2, h3, h4⟩ := ih (j + 1) i h
      refine ⟨h1, h2, ?_, h4⟩
      omega

/-- Lengths of corpus and metadata agree. -/
theorem build_corpus_length (data : Catalog) :
    (build_corpus_from_data data).1.length = (build_corpus_from_data data).2.length := by
  induction data with
  | nil => rfl
  | cons p rest ih =>
    simp only [build_corpus_from_data, List.foldr_cons] at ih ⊢
    simp [List.length_append, ih, (buildCatAux_length p.1 0 p.2).1,
      (buildCatAux_length p.1 0 p.2).2]

/-- Every metadata entry built for one category carries that category. -/
theorem buildCatAux_category (cat : String) (rows : List Row) (j : Nat) (m : Meta)
    (hm : m ∈ (buildCatAux cat j rows).2) : m.category = cat := by
  induction rows generalizing j with
  | nil => simp [buildCatAux] at hm
  | cons r rs ih =>
    simp only [buildCatAux, List.mem_cons] at hm
    rcases hm with hm | hm
    · rw [hm]
    · exact ih (j + 1) hm

/-- Every metadata entry's category is one of the catalog's keys. -/
theorem build_corpus_category_mem (data : Catalog) (m : Meta)
    (hm : m ∈ (build_corpus_from_data data).2) : m.category ∈ data.map Prod.fst := by
  induction data with
  | nil => simp [build_corpus_from_data] at hm
  | cons p rest ih =>
    simp only [build_corpus_from_data, List.foldr_cons, List.mem_append] at hm
    rcases hm with hm | hm
    · exact List.mem_map.mpr ⟨p, List.mem_cons_self p rest, (buildCatAux_category p.1 p.2 0 m hm).symm⟩
    · exact List.mem_cons_of_mem _ (ih hm)

/-- Corpus/metadata alignment: under distinct catalog keys (a Python dict),
metadata position `i` carries exactly the record whose document sits at
corpus position `i`, and its `(category, index)` pair addresses that record
inside the catalog. -/
theorem build_corpus_aligned (data : Catalog)
    (hkeys : (data.map Prod.fst).Nodup) (i : Nat) (m : Meta)
    (h : (build_corpus_from_data data).2[i]? = some m) :
    (build_corpus_from_data data).1[i]? = some (docText m.category m.row) ∧
      ∃ rows, List.lookup m.category data = some rows ∧ rows[m.index]? = some m.row := by
  induction data generalizing i with
  | nil => simp [build_corpus_from_data] at h
  | cons p rest ih =>
    obtain ⟨cat, rows⟩ := p
    simp only [build_corpus_from_data, List.foldr_cons] at h ⊢
    have hlen1 := (buildCatAux_length cat 0 rows).1
    have hlen2 := (buildCatAux_length cat 0 rows).2
    by_cases hi : i < (buildCatAux cat 0 rows).2.length
    · rw [List.getElem?_append_left hi] at h
      obtain ⟨h1, h2, h3, h4⟩ := buildCatAux_get cat 0 rows i m h
      constructor
      · rw [List.getElem?_append_left (by omega), h1, h2]
      · refine ⟨rows, ?_, ?_⟩
        · simp [List.lookup, h2]
        · rw [h3]
          simpa using h4
    · push_neg at hi
      rw [List.getElem?_append_right hi] at h
      have hne : m.category ≠ cat := by
        intro hc
        have hmem : m.category ∈ rest.map Prod.fst :=
          build_corpus_category_mem rest m (List.getElem?_mem h)
        rw [hc] at hmem
        simp only [List.map_cons, List.nodup_cons] at hkeys
        exact hkeys.1 hmem
      obtain ⟨hcor, rows2, hlook, hrow⟩ :=
        ih (by simpa using hkeys.of_cons) (i - (buildCatAux cat 0 rows).2.length) h
      refine ⟨?_, rows2, ?_, hrow⟩
      · rw [List.getElem?_append_right (show (buildCatAux cat 0 rows).1.length ≤ i by omega),
          hlen1, ← hlen2]
        exact hcor
      · simpa [List.lookup, beq_eq_false_iff_ne.mpr hne] using hlook

/-! ### Lemmas about the candidate ranking -/

/-- Elements of an ordered insert come from the inserted index or the list. -/
theorem mem_insertIdxDesc (sims : List Rat) (i : Nat) (l : List Nat) (x : Nat)
    (hx : x ∈ insertIdxDesc sims i l) : x = i ∨ x ∈ l := by
  induction l with
  | nil => simpa [insertIdxDesc] using hx
  | cons j rest ih =>
    simp only [insertIdxDesc] at hx
    split at hx
    · rcases List.mem_cons.mp hx with h | h
      · exact Or.inl h
      · exact Or.inr h
    · rcases List.mem_cons.mp hx with h | h
      · exact Or.inr (by simp [h])
      · rcases ih h with h2 | h2
        · exact Or.inl h2
        · exact Or.inr (List.mem_cons_of_mem _ h2)

/-- Ordered insert preserves the descending-similarity invariant. -/
theorem pairwise_insertIdxDesc (sims : List Rat) (i : Nat) (l : List Nat)
    (hl : l.Pairwise fun a b => sims.getD b 0 ≤ sims.getD a 0) :
    (insertIdxDesc sims i l).Pairwise fun a b => sims.getD b 0 ≤ sims.getD a 0 := by
  induction l with
  | nil => simp [insertIdxDesc]
  | cons j rest ih =>
    simp only [insertIdxDesc]
    split
    case isTrue hlt =>
      refine List.Pairwise.cons ?_ hl
      intro y hy
      rcases List.mem_cons.mp hy with h | h
      · exact le_of_lt (h ▸ hlt)
      · exact le_trans (List.rel_of_pairwise_cons hl h) (le_of_lt hlt)
    case isFalse hge =>
      refine List.Pairwise.cons ?_ (ih (List.Pairwise.of_cons hl))
      intro y hy
      rcases mem_insertIdxDesc sims i rest y hy with h | h
      · exact h ▸ le_of_not_lt hge
      · exact List.rel_of_pairwise_cons hl h

/-- The ranked candidate list is sorted by descending similarity. -/
theorem pairwise_argsortDesc (sims : List Rat) :
    (argsortDesc sims).Pairwise fun a b => sims.getD b 0 ≤ sims.getD a 0 := by
  unfold argsortDesc
  generalize List.range sims.length = l
  have h : ∀ (acc : List Nat), (acc.Pairwise fun a b => sims.getD b 0 ≤ sims.getD a 0) →
      (l.foldl (fun acc i => insertIdxDesc sims i acc) acc).Pairwise
        fun a b => sims.getD b 0 ≤ sims.getD a 0 := by
    induction l with
    | nil => intro acc hacc; simpa using hacc
    | cons i rest ih =>
      intro acc hacc
      exact ih _ (pairwise_insertIdxDesc sims i acc hacc)
  exact h [] List.Pairwise.nil

/-! ### Lemmas about the candidate loop -/

/-- Once fewer than `top_k` hits are accumulated, the loop never returns more
than `top_k` hits. -/
theorem retrieveLoop_length_le (md : List Meta) (sims : List Rat)
    (minP maxP : Option Rat) (cf : Option String) (topK : Int) :
    ∀ (cands : List Nat) (acc : List Hit), (acc.length : Int) < topK →
      ((retrieveLoop md sims minP maxP cf topK cands acc).length : Int) ≤ topK := by
  intro cands
  induction cands with
  | nil => intro acc h; simpa [retrieveLoop] using le_of_lt h
  | cons i rest ih =>
    intro acc h
    simp only [retrieveLoop]
    split
    · exact ih acc h
    · split
      · exact ih acc h
      · split
        · exact ih acc h
        · split
          case isTrue h4 =>
            simp only [List.length_append, List.length_singleton]
            push_cast
            omega
          case isFalse h4 =>
            apply ih
            have h5 := lt_of_not_le h4
            simpa using h5

/-- The loop keeps the hit list sorted by descending score, provided the
candidates are ranked and every accumulated hit outranks every remaining
candidate. -/
theorem retrieveLoop_sorted (md : List Meta) (sims : List Rat)
    (minP maxP : Option Rat) (cf : Option String) (topK : Int) :
    ∀ (cands : List Nat) (acc : List Hit),
      (cands.Pairwise fun a b => sims.getD b 0 ≤ sims.getD a 0) →
      (acc.Pairwise fun a b => b.score ≤ a.score) →
      (∀ a ∈ acc, ∀ j ∈ cands, sims.getD j 0 ≤ a.score) →
      (retrieveLoop md sims minP maxP cf topK cands acc).Pairwise
        fun a b => b.score ≤ a.score := by
  intro cands
  induction cands with
  | nil => intro acc _ hacc _; simpa [retrieveLoop] using hacc
  | cons i rest ih =>
    intro acc hc hacc hcross
    have hskip : ∀ a ∈ acc, ∀ j ∈ rest, sims.getD j 0 ≤ a.score := fun a ha j hj =>
      hcross a ha j (List.mem_cons_of_mem _ hj)
    simp only [retrieveLoop]
    split
    · exact ih acc (List.Pairwise.of_cons hc) hacc hskip
    · split
      · exact ih acc (List.Pairwise.of_cons hc) hacc hskip
      · split
        · exact ih acc (List.Pairwise.of_cons hc) hacc hskip
        · have hacc2 : ((acc ++ [(⟨sims.getD i 0, (md.getD i default).category,
              (md.getD i default).index, (md.getD i default).row⟩ : Hit)]).Pairwise
                fun a b => b.score ≤ a.score) := by
            rw [List.pairwise_append]
            refine ⟨hacc, by simp, ?_⟩
            intro a ha b hb
            simp only [List.mem_singleton] at hb
            subst hb
            exact hcross a ha i (List.mem_cons_self i rest)
          split
          · exact hacc2
          · apply ih _ (List.Pairwise.of_cons hc) hacc2
            intro a ha j hj
            rcases List.mem_append.mp ha with h | h
            · exact hskip a h j hj
            · simp only [List.mem_singleton] at h
              subst h
              exact List.rel_of_pairwise_cons hc hj

/-- Every hit returned by the loop was either already accumulated or passed
all per-candidate guards for some candidate index. -/
theorem mem_retrieveLoop (md : List Meta) (sims : List Rat)
    (minP maxP : Option Rat) (cf : Option String) (topK : Int) :
    ∀ (cands : List Nat) (acc : List Hit) (h : Hit),
      h ∈ retrieveLoop md sims minP maxP cf topK cands acc →
      h ∈ acc ∨ ∃ i ∈ cands, acceptedHit md sims minP maxP cf i h := by
  intro cands
  induction cands with
  | nil =>
    intro acc h hm
    exact Or.inl (by simpa [retrieveLoop] using hm)
  | cons i rest ih =>
    intro acc h hm
    simp only [retrieveLoop] at hm
    split at hm
    · rcases ih acc h hm with h1 | ⟨j, hj, hp⟩
      · exact Or.inl h1
      · exact Or.inr ⟨j, List.mem_cons_of_mem _ hj, hp⟩
    case isFalse h1 =>
      split at hm
      case isTrue h2 =>
        rcases ih acc h hm with hh | ⟨j, hj, hp⟩
        · exact Or.inl hh
        · exact Or.inr ⟨j, List.mem_cons_of_mem _ hj, hp⟩
      case isFalse h2 =>
        split at hm
        case isTrue h3 =>
          rcases ih acc h hm with hh | ⟨j, hj, hp⟩
          · exact Or.inl hh
          · exact Or.inr ⟨j, List.mem_cons_of_mem _ hj, hp⟩
        case isFalse h3 =>
          have hnew : h ∈ acc ++ [(⟨sims.getD i 0, (md.getD i default).category,
              (md.getD i default).index, (md.getD i default).row⟩ : Hit)] →
              h ∈ acc ∨ ∃ i' ∈ i :: rest, acceptedHit md sims minP maxP cf i' h := by
            intro hx
            rcases List.mem_append.mp hx with hh | hh
            · exact Or.inl hh
            · simp only [List.mem_singleton] at hh
              exact Or.inr ⟨i, List.mem_cons_self i rest,
                hh, Bool.eq_false_iff.mpr h2, Bool.eq_false_iff.mpr h3⟩
          split at hm
          · exact hnew hm
          · rcases ih _ h hm with hh | ⟨j, hj, hp⟩
            · exact hnew hh
            · exact Or.inr ⟨j, List.mem_cons_of_mem _ hj, hp⟩

/-! ### Claim C1 -/

/-- Claim C1, corrected: `retrieve_with_index` called with `top_k = 0` (a
legal int argument) returns one hit, not zero, because the source checks
`len(results) >= top_k` only after appending — so `len(result) ≤ top_k`
fails at `top_k = 0`. -/
theorem claim1_counterexample :
    (retrieve_with_index "q" (some demoOracle) demoMeta 0 none).map List.length =
        .ok 1 ∧ ¬ ((1 : Int) ≤ 0) := by
  exact ⟨by decide, by decide⟩

/-- Claim C1 (amended): for every query, index/metadata pair and every
`top_k ≥ 1`, the result list of `retrieve_with_index` has length at most
`top_k` and its hits are ordered by descending score. -/
theorem claim1_theorem (query : String) (index : Option SimOracle) (md : List Meta)
    (topK : Int) (cf : Option String) (res : List Hit) (htop : 1 ≤ topK)
    (hret : retrieve_with_index query index md topK cf = .ok res) :
    (res.length : Int) ≤ topK ∧ res.Pairwise fun a b => b.score ≤ a.score := by
  cases index with
  | none =>
    simp only [retrieve_with_index] at hret
    injection hret with hres
    subst hres
    exact ⟨by simpa using le_trans (by norm_num) htop, List.Pairwise.nil⟩
  | some oracle =>
    simp only [retrieve_with_index] at hret
    split at hret
    · exact absurd hret (by simp)
    · injection hret with hres
      subst hres
      constructor
      · exact retrieveLoop_length_le _ _ _ _ _ _ _ [] (by simpa using htop)
      · refine retrieveLoop_sorted _ _ _ _ _ _ _ []
          ((pairwise_argsortDesc (oracle query)).sublist (List.take_sublist _ _))
          List.Pairwise.nil ?_
        intro a ha
        simp at ha

/-- Claim C1 witness: a one-document catalog with `top_k = 1` returns one hit
within the bound and sorted. -/
theorem claim1_witness :
    (([(⟨1, "laptop", 0, demoRow⟩ : Hit)]).length : Int) ≤ 1 ∧
      ([(⟨1, "laptop", 0, demoRow⟩ : Hit)]).Pairwise fun a b => b.score ≤ a.score :=
  claim1_theorem "laptop under 50000" (some demoOracle) demoMeta 1 none
    [⟨1, "laptop", 0, demoRow⟩] (by decide) (by decide)

/-! ### Claim C2 -/

/-- Claim C2, confirmed: the price-constraint parser maps the four contract
queries as specified; digit-grouping commas are stripped ("2,000" parses to
2000), and a bare number with no qualifying keyword ("laptop 3060") yields no
bound. -/
theorem claim2_theorem :
    parse_price_constraints "under 2,000" = .ok (none, some 2000) ∧
    parse_price_constraints "between 1000 and 3000" = .ok (some 1000, some 3000) ∧
    parse_price_constraints "above 500" = .ok (some 500, none) ∧
    parse_price_constraints "show me a laptop" = .ok (none, none) ∧
    parse_price_constraints "laptop 3060" = .ok (none, none) := by
  exact ⟨by decide, by decide, by decide, by decide, by decide⟩

/-! ### Claim C3 -/

/-- Claim C3, corrected: the source's guard `min_p and price_val and ...`
short-circuits on a falsy `price_val`, so a record with no extractable price
is RETAINED (not excluded) by a price filter with a bound set: the query sets
`max = 50000`, the single record has no price column, yet one hit returns. -/
theorem claim3_counterexample :
    parse_price_constraints "laptop under 50000" = .ok (none, some 50000) ∧
    extract_price_value noPriceRow = none ∧
    (retrieve_with_index "laptop under 50000" (some demoOracle)
        [⟨"laptop", 0, noPriceRow⟩] 5 none).map List.length = .ok 1 := by
  exact ⟨by decide, by decide, by decide⟩

/-- Claim C3 (amended): a candidate record from which no price value can be
extracted is retained whether or not a bound is set — over metadata whose
records all lack an extractable price, the candidate loop returns exactly
what it returns with no price bounds at all. -/
theorem claim3_theorem (md : List Meta) (sims : List Rat) (cf : Option String)
    (topK : Int) (minP maxP : Option Rat)
    (hnp : ∀ m ∈ md, extract_price_value m.row = none) :
    ∀ (cands : List Nat) (acc : List Hit),
      retrieveLoop md sims minP maxP cf topK cands acc =
        retrieveLoop md sims none none cf topK cands acc := by
  intro cands
  induction cands with
  | nil => intro acc; rfl
  | cons i rest ih =>
    intro acc
    have hpv : extract_price_value (md.getD i default).row = none := by
      by_cases hi : i < md.length
      · refine hnp _ ?_
        rw [List.getD_eq_getElem md default hi]
        exact List.getElem_mem hi
      · rw [List.getD_eq_default md default (le_of_not_lt hi)]
        rfl
    simp only [retrieveLoop, hpv, qTruthy, Bool.and_false, Bool.false_and,
      Bool.or_self, Bool.false_eq_true, if_false]
    split
    · exact ih acc
    · split
      · exact ih acc
      · split
        · rfl
        · exact ih _

/-- Claim C3 witness: the loop over a no-price record under bounds
`min = 500, max = 50000` equals the loop with no bounds. -/
theorem claim3_witness :
    retrieveLoop [⟨"laptop", 0, noPriceRow⟩] [1] (some 500) (some 50000) none 5 [0] [] =
      retrieveLoop [⟨"laptop", 0, noPriceRow⟩] [1] none none none 5 [0] [] :=
  claim3_theorem [⟨"laptop", 0, noPriceRow⟩] [1] none 5 (some 500) (some 50000)
    (by decide) [0] []

/-! ### Claim C4 -/

/-- Claim C4, corrected: with the min bound 500 set by the query, a returned
hit can still carry an extractable price of 0, because Python treats the
float `0.0` as falsy in the guard `min_p and price_val and price_val < min_p`. -/
theorem claim4_counterexample :
    parse_price_constraints "laptop above 500" = .ok (some 500, none) ∧
    (retrieve_with_index "laptop above 500" (some demoOracle)
        [⟨"laptop", 0, zeroPriceRow⟩] 5 none).map
        (List.map fun h => extract_price_value h.row) = .ok [some 0] ∧
    ¬ ((500 : Rat) ≤ 0) := by
  exact ⟨by decide, by decide, by decide⟩

/-- Claim C4 (amended): every hit returned under an active (truthy) category
filter carries exactly that category; and when the parsed max (resp. min)
bound is set and nonzero, every returned hit whose record has an extractable
nonzero price has that price ≤ max (resp. ≥ min). -/
theorem claim4_theorem (query : String) (index : Option SimOracle) (md : List Meta)
    (topK : Int) (category_filter : Option String) (res : List Hit)
    (minP maxP : Option Rat)
    (hret : retrieve_with_index query index md topK category_filter = .ok res)
    (hparse : parse_price_constraints query = .ok (minP, maxP))
    (h : Hit) (hmem : h ∈ res) :
    (sTruthy category_filter = true → h.category = category_filter.getD "") ∧
    (∀ m p, maxP = some m → m ≠ 0 → extract_price_value h.row = some p → p ≠ 0 → p ≤ m) ∧
    (∀ m p, minP = some m → m ≠ 0 → extract_price_value h.row = some p → p ≠ 0 → m ≤ p) := by
  cases index with
  | none =>
    simp only [retrieve_with_index] at hret
    injection hret with hres
    subst hres
    simp at hmem
  | some oracle =>
    simp only [retrieve_with_index, hparse] at hret
    injection hret with hres
    subst hres
    rcases mem_retrieveLoop _ _ _ _ _ _ _ [] h hmem with h0 | ⟨i, _, heq, hcat, hprice⟩
    · simp at h0
    rw [Bool.or_eq_false_iff] at hprice
    obtain ⟨hmin, hmax⟩ := hprice
    refine ⟨?_, ?_, ?_⟩
    · intro hcf
      simp only [hcf, if_true] at hcat
      simp only [hcf, Bool.true_and, Bool.not_eq_false'] at hcat
      rw [heq]
      exact eq_of_beq hcat
    · intro m p hm hm0 hp hp0
      subst hm
      rw [heq] at hp
      simp only [hp, qTruthy, Option.getD_some] at hmax
      rw [beq_eq_false_iff_ne.mpr hp0] at hmax
      simp only [Bool.not_false, Bool.and_true] at hmax
      rw [beq_eq_false_iff_ne.mpr hm0] at hmax
      simp only [Bool.not_false, Bool.true_and, decide_eq_false_iff_not, not_lt] at hmax
      exact hmax
    · intro m p hm hm0 hp hp0
      subst hm
      rw [heq] at hp
      simp only [hp, qTruthy, Option.getD_some] at hmin
      rw [beq_eq_false_iff_ne.mpr hp0] at hmin
      simp only [Bool.not_false, Bool.and_true] at hmin
      rw [beq_eq_false_iff_ne.mpr hm0] at hmin
      simp only [Bool.not_false, Bool.true_and, decide_eq_false_iff_not, not_lt] at hmin
      exact hmin

/-- Claim C4 witness: under category filter "laptop" and the parsed bound
`max = 50000`, the returned demo hit has category "laptop" and its price
30000 is within the bound. -/
theorem claim4_witness :
    (⟨1, "laptop", 0, demoRow⟩ : Hit).category = (some "laptop").getD "" ∧
      (30000 : Rat) ≤ 50000 := by
  have h := claim4_theorem "laptop under 50000" (some demoOracle) demoMeta 5
    (some "laptop") [⟨1, "laptop", 0, demoRow⟩] none (some 50000) (by decide) (by decide)
    ⟨1, "laptop", 0, demoRow⟩ (by decide)
  exact ⟨h.1 (by decide), h.2.1 50000 30000 rfl (by decide) (by decide) (by decide)⟩

/-! ### Claim C5 -/

/-- Claim C5, confirmed: the router maps "hello" to the canned greeting,
"bye" to the canned farewell, "thank you so much" to the canned thanks, for
every index, metadata and responder; the message "laptop under 50000"
parses to the price constraint `(none, 50000)` and routes to product
retrieval with `top_k = 3` — against a catalog of four matching laptops
exactly 3 hits return, and when retrieval is empty the router degrades to
the external responder applied to the original message wrapped in the
no-catalog-match annotation. -/
theorem claim5_theorem :
    (∀ (idx : Option SimOracle) (md : List Meta) (g : String → String),
        generate_chat_response "hello" idx md g = .ok ⟨"general", greetingReply, none⟩) ∧
    (∀ (idx : Option SimOracle) (md : List Meta) (g : String → String),
        generate_chat_response "bye" idx md g = .ok ⟨"general", farewellReply, none⟩) ∧
    (∀ (idx : Option SimOracle) (md : List Meta) (g : String → String),
        generate_chat_response "thank you so much" idx md g =
          .ok ⟨"general", thanksReply, none⟩) ∧
    parse_price_constraints "laptop under 50000" = .ok (none, some 50000) ∧
    (∀ g : String → String,
        generate_chat_response "laptop under 50000" (some (fun _ => [])) [] g =
          .ok ⟨"general", g (noMatchPrompt "laptop under 50000"), none⟩) ∧
    (∀ g : String → String,
        (generate_chat_response "laptop under 50000" (some fourOracle) fourLaptops g).map
            (fun r => r.results.map List.length) = .ok (some 3)) :=
  ⟨fun _ _ _ => rfl, fun _ _ _ => rfl, fun _ _ _ => rfl, by decide,
    fun _ => rfl, fun _ => rfl⟩

/-! ### Claim C6 -/

/-- Claim C6, confirmed: for every catalog (with distinct keys, as a Python
dict guarantees), corpus and metadata have equal length, and the metadata at
every position holds the category, row ordinal and row of exactly the record
whose document sits at the same corpus position — the `(category, index)`
pair looks up that very row in the catalog. -/
theorem claim6_theorem (data : Catalog) (hkeys : (data.map Prod.fst).Nodup) :
    (build_corpus_from_data data).1.length = (build_corpus_from_data data).2.length ∧
    ∀ (i : Nat) (m : Meta), (build_corpus_from_data data).2[i]? = some m →
      (build_corpus_from_data data).1[i]? = some (docText m.category m.row) ∧
      ∃ rows, List.lookup m.category data = some rows ∧ rows[m.index]? = some m.row :=
  ⟨build_corpus_length data, fun i m h => build_corpus_aligned data hkeys i m h⟩

/-- Claim C6 witness: a two-category catalog aligns position 1 with the
mobile record. -/
theorem claim6_witness :
    (build_corpus_from_data [("laptop", [demoRow]), ("mobile", [noPriceRow])]).1.length =
        (build_corpus_from_data [("laptop", [demoRow]), ("mobile", [noPriceRow])]).2.length ∧
      (build_corpus_from_data [("laptop", [demoRow]), ("mobile", [noPriceRow])]).1[1]? =
        some (docText "mobile" noPriceRow) := by
  have h := claim6_theorem [("laptop", [demoRow]), ("mobile", [noPriceRow])] (by decide)
  exact ⟨h.1, (h.2 1 ⟨"mobile", 0, noPriceRow⟩ (by decide)).1⟩

/-! ### Claim C7 -/

/-- Claim C7, corrected: the weight test of the source is a case-SENSITIVE
substring match (`imp in str(col)`), not case-insensitive as claimed: the
column name "RAM" matches the curated set case-insensitively, yet its value
is appended once, not 3 times. -/
theorem claim7_counterexample :
    importantCI "RAM" = true ∧
      (docParts "laptop" [("RAM", some "16gb")]).count "16gb" = 1 ∧ (1 : Nat) ≠ 3 := by
  exact ⟨by decide, by decide, by decide⟩

/-- Claim C7 (amended): for every record, the document token list is exactly
the category tag 3 times followed by, for each non-missing field whose
stripped value is non-empty, the field name once and then the value 3 times
when the field name contains one of the curated important substrings
case-sensitively (upstream normalization lower-cases the names, where the
two readings coincide) and once otherwise; missing or empty values
contribute nothing. -/
theorem claim7_theorem (category : String) (row : Row) :
    docParts category row = [category, category, category] ++ row.flatMap fieldTokens :=
  docParts_eq category row

/-! ### Claim C8 -/

/-- Claim C8, corrected: after a failed rebuild the prior index does NOT
remain in service — admin_rebuild overwrites the in-memory index globals
unconditionally, so a live index is replaced by the absent signal. -/
theorem claim8_counterexample :
    (admin_rebuild fitFail [] liveState).index = none ∧ liveState.index.isSome = true :=
  ⟨rfl, rfl⟩

/-- Claim C8 (amended): when fitting fails (empty corpus or empty
vocabulary), build_tfidf_index returns the explicit absent-index signal
rather than raising; after such a failed rebuild the in-memory index is the
absent signal (subsequent retrievals return no hits) while the previously
persisted artifacts are left untouched. -/
theorem claim8_theorem (fit : List String → Except Unit SimOracle) (newData : Catalog)
    (st : ServerState) (hfail : fit (build_corpus_from_data newData).1 = .error ()) :
    build_tfidf_index fit (build_corpus_from_data newData).1 = none ∧
    (admin_rebuild fit newData st).index = none ∧
    (admin_rebuild fit newData st).persisted = st.persisted := by
  have hb : build_tfidf_index fit (build_corpus_from_data newData).1 = none := by
    unfold build_tfidf_index
    rw [hfail]
  refine ⟨hb, ?_, ?_⟩ <;> simp only [admin_rebuild, hb]

/-- Claim C8 witness: the always-failing fit on the empty catalog leaves the
live state's persisted artifacts unchanged while clearing the index. -/
theorem claim8_witness :
    build_tfidf_index fitFail (build_corpus_from_data []).1 = none ∧
    (admin_rebuild fitFail [] liveState).index = none ∧
    (admin_rebuild fitFail [] liveState).persisted = liveState.persisted :=
  claim8_theorem fitFail [] liveState rfl

/-! ### Claim C9 -/

/-- Claim C9, confirmed: the build-then-retrieve pipeline is deterministic —
two runs over identical catalog input (with the same fitting procedure, which
sklearn guarantees to be a function of the corpus) produce identical result
lists: same hits in the same order with equal scores. -/
theorem claim9_theorem (fit : List String → Except Unit SimOracle)
    (dataA dataB : Catalog) (query : String) (topK : Int) (h : dataA = dataB) :
    searchPipeline fit dataA query topK = searchPipeline fit dataB query topK := by
  rw [h]

/-- Claim C9 witness: two runs of the pipeline on the one-laptop catalog give
the same answer. -/
theorem claim9_witness :
    searchPipeline (fun _ => .ok demoOracle) [("laptop", [demoRow])] "laptop" 3 =
      searchPipeline (fun _ => .ok demoOracle) [("laptop", [demoRow])] "laptop" 3 :=
  claim9_theorem (fun _ => .ok demoOracle) [("laptop", [demoRow])]
    [("laptop", [demoRow])] "laptop" 3 rfl

/-! ### Claim C10 -/

/-- Claim C10, confirmed: the router's conversational tests use substring
containment — every message of fewer than 3 whitespace tokens whose
lower-cased text contains "hi" anywhere (e.g. inside "chips") gets the
canned greeting, independent of the index, the metadata and the external
responder (so retrieval and the fallback are never consulted). -/
theorem claim10_theorem (q : String) (idx : Option SimOracle) (md : List Meta)
    (g : String → String) (hhi : pyIn "hi" (pyStrip (strLower q)) = true)
    (hlen : (pySplit (pyStrip (strLower q))).length < 3) :
    generate_chat_response q idx md g = .ok ⟨"general", greetingReply, none⟩ := by
  have hany : anyIn ["hello", "hi", "hey"] (pyStrip (strLower q)) = true := by
    simp only [anyIn, List.any_eq_true]
    exact ⟨"hi", by simp, hhi⟩
  have hcond : (anyIn ["hello", "hi", "hey"] (pyStrip (strLower q)) &&
      decide ((pySplit (pyStrip (strLower q))).length < 3)) = true := by
    rw [hany, decide_eq_true hlen]
    rfl
  simp only [generate_chat_response, hcond, if_true]

/-- Claim C10 witness: the word "chips" alone triggers the greeting. -/
theorem claim10_witness :
    generate_chat_response "chips" none [] (fun s => s) =
      .ok ⟨"general", greetingReply, none⟩ :=
  claim10_theorem "chips" none [] (fun s => s) (by decide) (by decide)

end ProductFinder
